import Mathlib

/-!
Verification of the feed-forward neural-network trainer in
`neural_network_implementation.ipynb`.

Matrices of the numpy code are embedded as a shape-annotated real-valued
entry function (`Mat`).  The parameter store `{'W1': …, 'b1': …, …}` is a
list of per-layer `(W, b)` pairs; the gradient store and the optimizer
accumulators use the same representation.  Randomness (`np.random.randn`,
`np.random.permutation`) is passed in explicitly as oracle arguments.
-/

namespace NN

/-- A dense matrix: a shape together with a total entry function
(out-of-range entries are irrelevant junk, as in any shallow embedding). -/
structure Mat where
  rows : ℕ
  cols : ℕ
  entry : ℕ → ℕ → ℝ

/-- The per-layer parameter store: one `(W_i, b_i)` pair per layer `i = 1..L`. -/
abbrev Params := List (Mat × Mat)

/-- Junk default used with `List.getD` on stores. -/
noncomputable def dMat : Mat := ⟨0, 0, fun _ _ => 0⟩

/-- Junk default `(W, b)` pair. -/
noncomputable def dMat2 : Mat × Mat := (dMat, dMat)

/-- `np.dot` for 2-D arrays. -/
noncomputable def matMul (A B : Mat) : Mat :=
  ⟨A.rows, B.cols, fun i j => ∑ k in Finset.range A.cols, A.entry i k * B.entry k j⟩

/-- `M.T`. -/
def transpose (M : Mat) : Mat := ⟨M.cols, M.rows, fun i j => M.entry j i⟩

/-- Element-wise unary numpy op. -/
def matMap (f : ℝ → ℝ) (M : Mat) : Mat := ⟨M.rows, M.cols, fun i j => f (M.entry i j)⟩

/-- Element-wise binary numpy op on same-shape arrays. -/
def matMap2 (f : ℝ → ℝ → ℝ) (A B : Mat) : Mat :=
  ⟨A.rows, A.cols, fun i j => f (A.entry i j) (B.entry i j)⟩

/-- `A - B` (element-wise). -/
noncomputable def matSub (A B : Mat) : Mat := matMap2 (fun x y => x - y) A B

/-- `np.multiply` (Hadamard product). -/
noncomputable def hadamard (A B : Mat) : Mat := matMap2 (fun x y => x * y) A B

/-- `Z + b` with the column vector `b` broadcast over the batch dimension. -/
noncomputable def addBias (Z b : Mat) : Mat :=
  ⟨Z.rows, Z.cols, fun i j => Z.entry i j + b.entry i 0⟩

/-- `np.sum(M, axis=1, keepdims=True)`. -/
noncomputable def rowSums (M : Mat) : Mat :=
  ⟨M.rows, 1, fun i _ => ∑ j in Finset.range M.cols, M.entry i j⟩

/-- Sum of the squares of all entries (`np.sum(np.square(M))`). -/
noncomputable def sumSq (M : Mat) : ℝ :=
  ∑ i in Finset.range M.rows, ∑ j in Finset.range M.cols, (M.entry i j) ^ 2

/-- `sigmoid(z) = 1/(1+np.exp(-z))` from the notebook. -/
noncomputable def sigmoid (z : ℝ) : ℝ := 1 / (1 + Real.exp (-z))

/-- `sigmoid_derivative(a) = a*(1-a)` from the notebook. -/
noncomputable def sigmoid_derivative (a : ℝ) : ℝ := a * (1 - a)

/-- Element-wise sigmoid of a matrix. -/
noncomputable def sigmoidMat (M : Mat) : Mat := matMap sigmoid M

/-- Python-level errors that the numpy primitives in `initialize_parameters`
can raise: `np.random.randn` raises `ValueError` on a negative dimension, and
the integer division `1/n_input_nodes` raises `ZeroDivisionError` for `n = 0`. -/
inductive PyError where
  | valueError : PyError
  | zeroDivisionError : PyError
deriving DecidableEq

/-- `initialize_parameters(n_input_nodes, n_output_nodes)`:
`W = np.random.randn(n_out, n_in) * np.sqrt(1/n_in)`, `b = np.zeros([n_out, 1])`.
The random draws are supplied by the oracle `nz`.  `randn` is evaluated first,
so a negative dimension gives `ValueError` before `1/0` can give
`ZeroDivisionError`. -/
noncomputable def initialize_parameters (nz : ℕ → ℕ → ℝ) (n_input_nodes n_output_nodes : ℤ) :
    Except PyError (Mat × Mat) :=
  if n_output_nodes < 0 ∨ n_input_nodes < 0 then .error .valueError
  else if n_input_nodes = 0 then .error .zeroDivisionError
  else .ok (⟨n_output_nodes.toNat, n_input_nodes.toNat,
              fun i j => nz i j * Real.sqrt (1 / (n_input_nodes : ℝ))⟩,
            ⟨n_output_nodes.toNat, 1, fun _ _ => 0⟩)

/-- The loop body of `create_layers`, running over the adjacent pairs
`(layers_list[idx-1], layers_list[idx])` for `idx = 1, 2, …`. -/
noncomputable def clAux (nz : ℕ → ℕ → ℕ → ℝ) : ℕ → List (ℤ × ℤ) → Except PyError Params
  | _, [] => .ok []
  | idx, (a, b) :: rest => do
      let p ← initialize_parameters (nz idx) a b
      let ps ← clAux nz (idx + 1) rest
      .ok (p :: ps)

/-- `create_layers(layers_list)`: for each `idx in range(1, len(layers_list))`,
`parameters[idx] = initialize_parameters(layers_list[idx-1], layers_list[idx])`.
There is no validation of the topology. -/
noncomputable def create_layers (nz : ℕ → ℕ → ℕ → ℝ) (layers_list : List ℤ) :
    Except PyError Params :=
  clAux nz 1 (layers_list.zip layers_list.tail)

/-- The loop of `forward_propagation`: the produced activations `A1, …, AL`. -/
noncomputable def forwardAux : Mat → Params → List Mat
  | _, [] => []
  | A, (W, b) :: rest =>
      let An := sigmoidMat (addBias (matMul W A) b)
      An :: forwardAux An rest

/-- `forward_propagation(X, parameters)`: returns the activation cache
`[A0 = X, A1, …, AL]` and the final activation `A_L` (which is `A0` itself
when the parameter store is empty, per `activations['A'+str(limit-1)]`). -/
noncomputable def forward_propagation (X : Mat) (parameters : Params) : List Mat × Mat :=
  let produced := forwardAux X parameters
  (X :: produced, produced.getLastD X)

/-- `compute_cost(act, y, parameters, lambd, regularization)`: mean binary
cross-entropy over `m = y.shape[1]` examples plus, when `regularization ==
'l2'`, the penalty `(lambd/(2m)) * Σ_l ‖W_l‖²`. -/
noncomputable def compute_cost (act y : Mat) (parameters : Params) (lambd : ℝ)
    (regularization : String) : ℝ :=
  let m : ℝ := (y.cols : ℝ)
  let logprobs : ℝ := ∑ i in Finset.range act.rows, ∑ j in Finset.range act.cols,
      (Real.log (act.entry i j) * y.entry i j +
        Real.log (1 - act.entry i j) * (1 - y.entry i j))
  let reg_term : ℝ :=
    if regularization = "l2" then
      (lambd / (2 * m)) * ((parameters.map fun p => sumSq p.1).sum)
    else 0
  (-1 / m) * logprobs + reg_term

/-- The descending `dZ` loop of `backward_propagation`: given
`dztop = dZ_last` and the pairs `(A_l, W_{l+1})` for `l = last-1, …, 1`,
returns `[dZ_last, dZ_{last-1}, …, dZ_1]` using
`dZ_l = sigmoid_derivative(A_l) ⊙ (W_{l+1}ᵀ · dZ_{l+1})`. -/
noncomputable def dzAux : Mat → List (Mat × Mat) → List Mat
  | dztop, [] => [dztop]
  | dztop, (A, Wnext) :: rest =>
      dztop :: dzAux (hadamard (matMap sigmoid_derivative A) (matMul (transpose Wnext) dztop)) rest

/-- `backward_propagation(y, parameters, activations, lambd, regularization)`.
Note the source sets `m = y.shape[0]` (the number of ROWS of `y`), then
`dW_i = (1/m)·dZ_i·A_{i-1}ᵀ`, `db_i = (1/m)·Σ_batch dZ_i`, and when
`regularization == 'l2'` adds `(lambd/m)·W_i` to `dW_i`. -/
noncomputable def backward_propagation (y : Mat) (parameters : Params) (activations : List Mat)
    (lambd : ℝ) (regularization : String) : Params :=
  let m : ℝ := (y.rows : ℝ)
  let Alast := activations.getLastD y
  let pairs := (List.zip (activations.drop 1).dropLast ((parameters.map Prod.fst).drop 1)).reverse
  let dzs := (dzAux (matSub Alast y) pairs).reverse
  let base := List.zipWith
    (fun dz Aprev => (matMap (fun x => (1 / m) * x) (matMul dz (transpose Aprev)),
                      matMap (fun x => (1 / m) * x) (rowSums dz)))
    dzs activations.dropLast
  if regularization = "l2" then
    List.zipWith (fun (g p : Mat × Mat) =>
      (matMap2 (fun gv wv => gv + (lambd / m) * wv) g.1 p.1, g.2)) base parameters
  else base

/-- Modelled from the spec: identical to `backward_propagation` except that
`m` is the number of COLUMNS of `y` — the batch size — as §4.4 prescribes
(`dW_l = (1/m)·dZ_l·A_{l-1}ᵀ [+ (λ/m)·W_l]`, `db_l = (1/m)·Σ_batch dZ_l`,
"where m is the number of examples in the batch"). -/
noncomputable def backward_propagation_spec (y : Mat) (parameters : Params)
    (activations : List Mat) (lambd : ℝ) (regularization : String) : Params :=
  let m : ℝ := (y.cols : ℝ)
  let Alast := activations.getLastD y
  let pairs := (List.zip (activations.drop 1).dropLast ((parameters.map Prod.fst).drop 1)).reverse
  let dzs := (dzAux (matSub Alast y) pairs).reverse
  let base := List.zipWith
    (fun dz Aprev => (matMap (fun x => (1 / m) * x) (matMul dz (transpose Aprev)),
                      matMap (fun x => (1 / m) * x) (rowSums dz)))
    dzs activations.dropLast
  if regularization = "l2" then
    List.zipWith (fun (g p : Mat × Mat) =>
      (matMap2 (fun gv wv => gv + (lambd / m) * wv) g.1 p.1, g.2)) base parameters
  else base

/-- `update_parameters(parameters, gradients, learning_rate)`: plain
gradient descent `θ ← θ - α·dθ` for every layer's `W` and `b`. -/
noncomputable def update_parameters (parameters gradients : Params) (learning_rate : ℝ) : Params :=
  List.zipWith (fun (p g : Mat × Mat) =>
      (matMap2 (fun pv gv => pv - learning_rate * gv) p.1 g.1,
       matMap2 (fun pv gv => pv - learning_rate * gv) p.2 g.2))
    parameters gradients

/-- Zero accumulators shadowing every parameter
(`np.zeros(parameters[…].shape)`). -/
noncomputable def zerosLike (parameters : Params) : Params :=
  parameters.map fun p =>
    (⟨p.1.rows, p.1.cols, fun _ _ => 0⟩, ⟨p.2.rows, p.2.cols, fun _ _ => 0⟩)

/-- `initialize_momentum_params(parameters)`. -/
noncomputable def initialize_momentum_params (parameters : Params) : Params :=
  zerosLike parameters

/-- `update_parameters_momentum(parameters, gradients, learning_rate, v, beta)`:
`v ← β·v + (1-β)·dθ; θ ← θ - α·v`.  Returns the updated parameters together
with the (in-place mutated) `v`. -/
noncomputable def update_parameters_momentum (parameters gradients : Params)
    (learning_rate : ℝ) (v : Params) (beta : ℝ) : Params × Params :=
  let vNew := List.zipWith (fun (vp g : Mat × Mat) =>
      (matMap2 (fun vv gv => beta * vv + (1 - beta) * gv) vp.1 g.1,
       matMap2 (fun vv gv => beta * vv + (1 - beta) * gv) vp.2 g.2)) v gradients
  (List.zipWith (fun (p vn : Mat × Mat) =>
      (matMap2 (fun pv vv => pv - learning_rate * vv) p.1 vn.1,
       matMap2 (fun pv vv => pv - learning_rate * vv) p.2 vn.2)) parameters vNew,
   vNew)

/-- `initialize_rmsprop_params(parameters)`. -/
noncomputable def initialize_rmsprop_params (parameters : Params) : Params :=
  zerosLike parameters

/-- `update_parameters_rmsprop(parameters, gradients, learning_rate, s, t, beta, epsilon)`:
`s ← β·s + (1-β)·dθ²`, `s_corrected = s/(1-β^t)`, and then — exactly as the
source line `parameters[…] -= learning_rate*1/(epsilon + np.sqrt(s_corrected[…]))`
reads — `θ ← θ - α·1/(ε + √s_corrected)`, the gradient itself absent from the
final update term.  Returns the updated parameters and the mutated `s`. -/
noncomputable def update_parameters_rmsprop (parameters gradients : Params)
    (learning_rate : ℝ) (s : Params) (t : ℕ) (beta epsilon : ℝ) : Params × Params :=
  let sNew := List.zipWith (fun (sp g : Mat × Mat) =>
      (matMap2 (fun sv gv => beta * sv + (1 - beta) * gv ^ 2) sp.1 g.1,
       matMap2 (fun sv gv => beta * sv + (1 - beta) * gv ^ 2) sp.2 g.2)) s gradients
  (List.zipWith (fun (p sn : Mat × Mat) =>
      (matMap2 (fun pv sv => pv - learning_rate * (1 / (epsilon + Real.sqrt (sv / (1 - beta ^ t))))) p.1 sn.1,
       matMap2 (fun pv sv => pv - learning_rate * (1 / (epsilon + Real.sqrt (sv / (1 - beta ^ t))))) p.2 sn.2))
    parameters sNew,
   sNew)

/-- `initialize_adam_params(parameters)`. -/
noncomputable def initialize_adam_params (parameters : Params) : Params × Params :=
  (zerosLike parameters, zerosLike parameters)

/-- `update_parameters_adam(parameters, gradients, learning_rate, v, s, t, beta1, beta2, epsilon)`.
Returns the updated parameters and the mutated `v` and `s`. -/
noncomputable def update_parameters_adam (parameters gradients : Params) (learning_rate : ℝ)
    (v s : Params) (t : ℕ) (beta1 beta2 epsilon : ℝ) : Params × Params × Params :=
  let vNew := List.zipWith (fun (vp g : Mat × Mat) =>
      (matMap2 (fun vv gv => beta1 * vv + (1 - beta1) * gv) vp.1 g.1,
       matMap2 (fun vv gv => beta1 * vv + (1 - beta1) * gv) vp.2 g.2)) v gradients
  let sNew := List.zipWith (fun (sp g : Mat × Mat) =>
      (matMap2 (fun sv gv => beta2 * sv + (1 - beta2) * gv ^ 2) sp.1 g.1,
       matMap2 (fun sv gv => beta2 * sv + (1 - beta2) * gv ^ 2) sp.2 g.2)) s gradients
  (List.zipWith (fun (p : Mat × Mat) (vsn : (Mat × Mat) × (Mat × Mat)) =>
      (⟨p.1.rows, p.1.cols, fun i j => p.1.entry i j - learning_rate *
          ((vsn.1.1.entry i j / (1 - beta1 ^ t)) /
            (epsilon + Real.sqrt (vsn.2.1.entry i j / (1 - beta2 ^ t))))⟩,
       ⟨p.2.rows, p.2.cols, fun i j => p.2.entry i j - learning_rate *
          ((vsn.1.2.entry i j / (1 - beta1 ^ t)) /
            (epsilon + Real.sqrt (vsn.2.2.entry i j / (1 - beta2 ^ t))))⟩))
    parameters (vNew.zip sNew),
   vNew, sNew)

/-- `predict(parameters, X)`: `predictions = np.zeros(op.shape);
predictions[op > 0.5] = 1` where `op` is the final forward activation. -/
noncomputable def predict (parameters : Params) (X : Mat) : Mat :=
  let op := (forward_propagation X parameters).2
  ⟨op.rows, op.cols, fun i j => if op.entry i j > 1 / 2 then 1 else 0⟩

/-- The column-index chunks cut by `generate_random_mini_batches`:
`num_complete_minibatches = 1 + math.floor(m/B)` slices
`perm[k*B : (k+1)*B]` of the drawn permutation. -/
def batchIndices (m B : ℕ) (perm : List ℕ) : List (List ℕ) :=
  (List.range (1 + m / B)).map fun k => (perm.drop (k * B)).take B

/-- `M[:, idxs]`: numpy fancy-indexing of columns. -/
def colSelect (M : Mat) (idxs : List ℕ) : Mat :=
  ⟨M.rows, idxs.length, fun i j => M.entry i (idxs.getD j 0)⟩

/-- `generate_random_mini_batches(X, Y, mini_batch_size)`: the drawn
permutation of the `m = X.shape[1]` columns is supplied as `perm`; both `X`
and `Y` are then sliced into the same contiguous chunks. -/
def generate_random_mini_batches (X Y : Mat) (mini_batch_size : ℕ) (perm : List ℕ) :
    List (Mat × Mat) :=
  (batchIndices X.cols mini_batch_size perm).map fun c => (colSelect X c, colSelect Y c)

/-- Which of the four update rules a mini-batch step executes. -/
inductive URule where
  | plain : URule
  | momentum : URule
  | rmsprop : URule
  | adam : URule
deriving DecidableEq

/-- The optimizer dispatch of `train_nn_model`: both its `if/elif` chains
compare `optimization` to `'rmsprop'`, `'adam'`, `'momentum'` in this order,
every other string (including `'none'`) reaching the `else` branch. -/
def ruleOf (optimization : String) : URule :=
  if optimization = "rmsprop" then .rmsprop
  else if optimization = "adam" then .adam
  else if optimization = "momentum" then .momentum
  else .plain

/-- The optimizer accumulators held by a training run (`v` and/or `s`);
branches that the source never allocates stay empty. -/
structure OptState where
  v : Params
  s : Params

/-- The state-initialization `if/elif` chain of `train_nn_model`. -/
noncomputable def optStateInit (rule : URule) (parameters : Params) : OptState :=
  match rule with
  | .rmsprop => ⟨[], initialize_rmsprop_params parameters⟩
  | .adam => ⟨(initialize_adam_params parameters).1, (initialize_adam_params parameters).2⟩
  | .momentum => ⟨initialize_momentum_params parameters, []⟩
  | .plain => ⟨[], []⟩

/-- The update-selection `if/elif/else` chain of `train_nn_model`, with the
exact arguments of each call site (`beta2` for RMSProp, `beta1` for momentum). -/
noncomputable def trainUpdate (rule : URule) (learning_rate beta1 beta2 epsilon : ℝ) (t : ℕ)
    (parameters : Params) (grads : Params) (st : OptState) : Params × OptState :=
  match rule with
  | .rmsprop =>
      let r := update_parameters_rmsprop parameters grads learning_rate st.s t beta2 epsilon
      (r.1, ⟨st.v, r.2⟩)
  | .adam =>
      let r := update_parameters_adam parameters grads learning_rate st.v st.s t beta1 beta2 epsilon
      (r.1, ⟨r.2.1, r.2.2⟩)
  | .momentum =>
      let r := update_parameters_momentum parameters grads learning_rate st.v beta1
      (r.1, ⟨r.2, st.s⟩)
  | .plain => (update_parameters parameters grads learning_rate, st)

/-- The inner mini-batch loop of `train_nn_model`: forward → backward →
optimizer update per mini-batch (the `compute_cost` call feeds only the
printed diagnostic and is omitted).  Alongside the final state it returns,
per executed update call, the rule dispatched and the step counter `t` it
was executed with. -/
noncomputable def runMinibatches (rule : URule) (learning_rate lambd : ℝ)
    (regularization : String) (beta1 beta2 epsilon : ℝ) (t : ℕ) :
    Params × OptState → List (Mat × Mat) → (Params × OptState) × List (URule × ℕ)
  | st, [] => (st, [])
  | st, (mX, mY) :: rest =>
      let acts := (forward_propagation mX st.1).1
      let grads := backward_propagation mY st.1 acts lambd regularization
      let stepped := trainUpdate rule learning_rate beta1 beta2 epsilon t st.1 grads st.2
      let r := runMinibatches rule learning_rate lambd regularization beta1 beta2 epsilon t stepped rest
      (r.1, (rule, t) :: r.2)

/-- The epoch loop of `train_nn_model`: each epoch draws its mini-batches with
`generate_random_mini_batches(X, y, mini_batch_size)` (the per-epoch
permutation supplied by `perms`) and folds the mini-batch loop.  It also
returns the width handed to the sampler on each epoch and the concatenated
update-call records. -/
noncomputable def runEpochs (perms : ℕ → List ℕ) (X y : Mat) (rule : URule)
    (learning_rate lambd : ℝ) (regularization : String) (beta1 beta2 epsilon : ℝ) (t : ℕ)
    (mini_batch_size : ℕ) :
    ℕ → ℕ → Params × OptState → (Params × OptState) × List ℕ × List (URule × ℕ)
  | _, 0, st => (st, [], [])
  | e, k + 1, st =>
      let mbs := generate_random_mini_batches X y mini_batch_size (perms e)
      let r1 := runMinibatches rule learning_rate lambd regularization beta1 beta2 epsilon t st mbs
      let r2 := runEpochs perms X y rule learning_rate lambd regularization beta1 beta2 epsilon t
        mini_batch_size (e + 1) k r1.1
      (r2.1, mini_batch_size :: r2.2.1, r1.2 ++ r2.2.2)

/-- Diagnostic record of one training run: the chunk width passed to the
mini-batch sampler on each epoch, and `(rule, t)` for each executed
parameter-update call, in execution order. -/
structure TrainLog where
  samplerWidths : List ℕ
  updates : List (URule × ℕ)

/-- `train_nn_model(X, y, hidden_layers, epochs, learning_rate, lambd,
regularization, optimization, beta1, beta2, epsilon, t)`.  The topology is
`[X.shape[0]] + hidden_layers + [1]`; `mini_batch_size = 64` is a hard-coded
local variable (the signature has no such option); the step counter is the
argument `t` (source default `t=2`), passed unchanged to every update call of
the whole run. -/
noncomputable def train_nn_model (nz : ℕ → ℕ → ℕ → ℝ) (perms : ℕ → List ℕ) (X y : Mat)
    (hidden_layers : List ℤ) (epochs : ℕ) (learning_rate lambd : ℝ)
    (regularization optimization : String) (beta1 beta2 epsilon : ℝ) (t : ℕ) :
    Except PyError (Params × TrainLog) :=
  match create_layers nz ((X.rows : ℤ) :: hidden_layers ++ [1]) with
  | .error e => .error e
  | .ok parameters =>
      let rule := ruleOf optimization
      let st0 := optStateInit rule parameters
      let mini_batch_size : ℕ := 64
      let r := runEpochs perms X y rule learning_rate lambd regularization beta1 beta2 epsilon t
        mini_batch_size 1 epochs (parameters, st0)
      .ok (r.1.1, ⟨r.2.1, r.2.2⟩)

/-! Concrete inputs used by the evaluation theorems and witnesses. -/

/-- Literal scenario of §8: `W_1 = [[0.5, -0.5]]`. -/
noncomputable def W41 : Mat := ⟨1, 2, fun _ j => if j = 0 then 1 / 2 else -(1 / 2)⟩

/-- Literal scenario of §8: `b_1 = [[0]]`. -/
noncomputable def b41 : Mat := ⟨1, 1, fun _ _ => 0⟩

/-- Literal scenario of §8: `X = [[1], [1]]` (one example, two features). -/
noncomputable def X41 : Mat := ⟨2, 1, fun _ _ => 1⟩

/-- Literal scenario of §8: `Y = [[1]]`. -/
noncomputable def Y41 : Mat := ⟨1, 1, fun _ _ => 1⟩

/-- Literal scenario of §8: the parameter store `{W1, b1}`. -/
noncomputable def params41 : Params := [(W41, b41)]

/-- Batch-of-two input: `W_1 = [[0]]`. -/
noncomputable def Wb1 : Mat := ⟨1, 1, fun _ _ => 0⟩

/-- Batch-of-two input: `b_1 = [[0]]`. -/
noncomputable def bb1 : Mat := ⟨1, 1, fun _ _ => 0⟩

/-- Batch-of-two input: `X = [[1, 1]]` (two examples). -/
noncomputable def Xb2 : Mat := ⟨1, 2, fun _ _ => 1⟩

/-- Batch-of-two input: `Y = [[1, 1]]`. -/
noncomputable def Yb2 : Mat := ⟨1, 2, fun _ _ => 1⟩

/-- Batch-of-two input: the parameter store `{W1, b1}`. -/
noncomputable def paramsB : Params := [(Wb1, bb1)]

/-- The activation cache of the matching forward pass on the batch of two. -/
noncomputable def actsB : List Mat := (forward_propagation Xb2 paramsB).1

/-- Constant weight-noise oracle (every `randn` draw is 0). -/
noncomputable def nz0 : ℕ → ℕ → ℕ → ℝ := fun _ _ _ => 0

/-- Permutation oracle for one-column data: every epoch draws `[0]`. -/
def permsId : ℕ → List ℕ := fun _ => [0]

/-- One-example training input `X = [[1]]`. -/
noncomputable def X1 : Mat := ⟨1, 1, fun _ _ => 1⟩

/-- One-example training label `Y = [[1]]`. -/
noncomputable def Y1 : Mat := ⟨1, 1, fun _ _ => 1⟩

/-- Four-example feature matrix used by the sampler witness. -/
noncomputable def X4 : Mat := ⟨1, 4, fun _ _ => 0⟩

/-- Four-example label row used by the sampler witness. -/
noncomputable def Y4 : Mat := ⟨1, 4, fun _ _ => 0⟩

/-- One-layer parameter store (`θ = 5`) for the RMSProp witness. -/
noncomputable def P5 : Params := [(⟨1, 1, fun _ _ => 5⟩, ⟨1, 1, fun _ _ => 5⟩)]

/-- One-layer gradient store (`dθ = 3`) for the RMSProp witness. -/
noncomputable def G5 : Params := [(⟨1, 1, fun _ _ => 3⟩, ⟨1, 1, fun _ _ => 3⟩)]

/-- One-layer accumulator store (`s = 7`) for the RMSProp witness. -/
noncomputable def S5 : Params := [(⟨1, 1, fun _ _ => 7⟩, ⟨1, 1, fun _ _ => 7⟩)]

/-! Helper lemmas. -/

/-- The logistic sigmoid is strictly positive. -/
lemma sigmoid_pos (z : ℝ) : 0 < sigmoid z := by
  unfold sigmoid
  positivity

/-- The logistic sigmoid is strictly below one. -/
lemma sigmoid_lt_one (z : ℝ) : sigmoid z < 1 := by
  unfold sigmoid
  rw [div_lt_one (by positivity)]
  linarith [Real.exp_pos (-z)]

/-- `sigmoid 0 = 1/2`. -/
lemma sigmoid_zero : sigmoid 0 = 1 / 2 := by
  unfold sigmoid
  rw [neg_zero, Real.exp_zero]
  norm_num

/-- Every activation produced by the forward loop is a matrix of sigmoids,
hence has all entries strictly inside `(0, 1)`. -/
lemma forwardAux_mem_unit (parameters : Params) :
    ∀ (A0 : Mat), ∀ A ∈ forwardAux A0 parameters, ∀ i j,
      0 < A.entry i j ∧ A.entry i j < 1 := by
  induction parameters with
  | nil => intro A0 A hA; simp [forwardAux] at hA
  | cons p rest ih =>
      intro A0 A hA i j
      obtain ⟨W, b⟩ := p
      simp only [forwardAux, List.mem_cons] at hA
      rcases hA with h | h
      · subst h
        exact ⟨sigmoid_pos _, sigmoid_lt_one _⟩
      · exact ih _ A h i j

/-- A nonempty list's `getLastD` is one of its elements. -/
lemma getLastD_mem : ∀ (l : List α) (d : α), l ≠ [] → l.getLastD d ∈ l := by
  intro l
  induction l with
  | nil => intro d h; exact absurd rfl h
  | cons a t ih =>
      intro d _
      cases t with
      | nil => simp
      | cons b t' =>
          have := ih a (by simp)
          simp only [List.getLastD]
          exact List.mem_cons_of_mem a this

/-! Claim theorems. -/

/-- Claim C9 (confirmed): for every input batch and every nonempty parameter
store, every entry of every activation produced by `forward_propagation` —
in particular the final prediction — lies strictly within `(0, 1)`. -/
theorem forward_activations_in_unit_interval (X : Mat) (parameters : Params)
    (h : parameters ≠ []) :
    (∀ A ∈ (forward_propagation X parameters).1.tail, ∀ i j,
        0 < A.entry i j ∧ A.entry i j < 1) ∧
    (∀ i j, 0 < ((forward_propagation X parameters).2).entry i j ∧
        ((forward_propagation X parameters).2).entry i j < 1) := by
  constructor
  · intro A hA
    have : A ∈ forwardAux X parameters := by
      simpa [forward_propagation] using hA
    exact forwardAux_mem_unit parameters X A this
  · intro i j
    have hne : forwardAux X parameters ≠ [] := by
      cases parameters with
      | nil => exact absurd rfl h
      | cons p rest =>
          obtain ⟨W, b⟩ := p
          simp [forwardAux]
    have hmem : (forwardAux X parameters).getLastD X ∈ forwardAux X parameters :=
      getLastD_mem _ _ hne
    have := forwardAux_mem_unit parameters X _ hmem i j
    simpa [forward_propagation] using this

/-- Witness for C9 at the literal `[2,1]` network. -/
theorem forward_activations_in_unit_interval_witness :
    params41 ≠ [] ∧
    ((∀ A ∈ (forward_propagation X41 params41).1.tail, ∀ i j,
        0 < A.entry i j ∧ A.entry i j < 1) ∧
     (∀ i j, 0 < ((forward_propagation X41 params41).2).entry i j ∧
        ((forward_propagation X41 params41).2).entry i j < 1)) :=
  ⟨by simp [params41], forward_activations_in_unit_interval X41 params41 (by simp [params41])⟩

/-- Splitting a `take` of a sum into two consecutive slices. -/
lemma take_add_split : ∀ (a b : ℕ) (xs : List α),
    xs.take (a + b) = xs.take a ++ (xs.drop a).take b := by
  intro a
  induction a with
  | zero => intro b xs; simp
  | succ a ih =>
      intro b xs
      cases xs with
      | nil => simp
      | cons x xs =>
          have : a + 1 + b = (a + b) + 1 := by omega
          rw [this]
          simp [List.take_succ_cons, List.drop_succ_cons, ih b xs]

/-- The concatenation of the first `n` width-`B` slices of `xs` is
`xs.take (n*B)`. -/
lemma flatten_slices (B : ℕ) : ∀ (n : ℕ) (xs : List ℕ),
    ((List.range n).map fun k => (xs.drop (k * B)).take B).flatten = xs.take (n * B) := by
  intro n
  induction n with
  | zero => intro xs; simp
  | succ n ih =>
      intro xs
      rw [List.range_succ, List.map_append, List.flatten_append, ih xs]
      simp only [List.map_cons, List.map_nil, List.flatten_cons, List.flatten_nil,
        List.append_nil]
      rw [Nat.succ_mul, take_add_split]

/-- The chunks cut by the sampler concatenate back to the permutation. -/
lemma batchIndices_flatten (m B : ℕ) (hB : 0 < B) (perm : List ℕ)
    (hlen : perm.length = m) : (batchIndices m B perm).flatten = perm := by
  unfold batchIndices
  rw [flatten_slices]
  apply List.take_of_length_le
  rw [hlen]
  have h1 : m = B * (m / B) + m % B := (Nat.div_add_mod m B).symm
  have h2 : m % B < B := Nat.mod_lt _ hB
  have h3 : (1 + m / B) * B = B + B * (m / B) := by ring
  omega

/-- If an element occurs exactly once in the concatenation of a list of
chunks, then exactly one chunk contains it. -/
lemma countP_chunks_of_count_flatten_one (a : ℕ) :
    ∀ (L : List (List ℕ)), L.flatten.count a = 1 →
      L.countP (fun c => decide (a ∈ c)) = 1 := by
  intro L
  induction L with
  | nil => intro h; simp at h
  | cons c L ih =>
      intro h
      rw [List.flatten_cons, List.count_append] at h
      by_cases hc : a ∈ c
      · have hc1 : 0 < c.count a := List.count_pos_iff.mpr hc
        have hrest : (List.flatten L).count a = 0 := by omega
        have hnot : a ∉ L.flatten := List.count_eq_zero.mp hrest
        have : L.countP (fun c => decide (a ∈ c)) = 0 := by
          rw [List.countP_eq_zero]
          intro c' hc'
          simp only [decide_eq_true_eq]
          exact fun hmem => hnot (List.mem_flatten_of_mem hc' hmem)
        rw [List.countP_cons, this]
        simp [hc]
      · have hc0 : c.count a = 0 := List.count_eq_zero.mpr hc
        have hrest : (List.flatten L).count a = 1 := by omega
        rw [List.countP_cons, ih hrest]
        simp [hc]

/-- `getD` through a `zipWith`, with arbitrary defaults, in range. -/
lemma getD_zipWith {α β γ : Type} (f : α → β → γ) :
    ∀ {as : List α} {bs : List β} {l : ℕ} (d : γ) (da : α) (d2 : β),
      l < as.length → l < bs.length →
      (List.zipWith f as bs).getD l d = f (as.getD l da) (bs.getD l d2) := by
  intro as
  induction as with
  | nil => intro bs l d da d2 h1 h2; simp at h1
  | cons a as ih =>
      intro bs l d da d2 h1 h2
      cases bs with
      | nil => simp at h2
      | cons b bs =>
          cases l with
          | zero => simp
          | succ l =>
              simp only [List.zipWith_cons_cons, List.getD_cons_succ]
              exact ih d da d2 (by simpa using h1) (by simpa using h2)

/-- Claim C3 (confirmed): for batch size `B > 0` and a permutation `perm` of
the `m = X.cols` column indices, the sampler produces exactly `1 + ⌊m/B⌋`
chunks; the concatenation of the chunk indices (in chunk order) is a
permutation of `0..m-1`; each example lands in exactly one chunk; and when
`B ∣ m` the final produced chunk is empty. -/
theorem mini_batches_partition (X Y : Mat) (B : ℕ) (perm : List ℕ)
    (hB : 0 < B) (hp : perm.Perm (List.range X.cols)) :
    (generate_random_mini_batches X Y B perm).length = 1 + X.cols / B ∧
    (batchIndices X.cols B perm).flatten.Perm (List.range X.cols) ∧
    (∀ i, i < X.cols →
        (batchIndices X.cols B perm).countP (fun c => decide (i ∈ c)) = 1) ∧
    (B ∣ X.cols → (batchIndices X.cols B perm).getLast? = some []) := by
  have hlen : perm.length = X.cols := by
    simpa using hp.length_eq
  have hflat : (batchIndices X.cols B perm).flatten = perm :=
    batchIndices_flatten X.cols B hB perm hlen
  refine ⟨?_, ?_, ?_, ?_⟩
  · simp [generate_random_mini_batches, batchIndices]
  · rw [hflat]; exact hp
  · intro i hi
    apply countP_chunks_of_count_flatten_one
    rw [hflat, hp.count_eq]
    exact List.count_eq_one_of_mem (List.nodup_range _) (List.mem_range.mpr hi)
  · intro hdvd
    unfold batchIndices
    rw [show 1 + X.cols / B = X.cols / B + 1 by omega, List.range_succ, List.map_append]
    simp only [List.map_cons, List.map_nil]
    rw [List.getLast?_concat]
    rw [Nat.div_mul_cancel hdvd, ← hlen, List.drop_length]
    simp

/-- Witness for C3: `m = 4`, `B = 2`, permutation `[2,0,3,1]` — three chunks
`[[2,0],[3,1],[]]`, the trailing one empty since `2 ∣ 4`. -/
theorem mini_batches_partition_witness :
    0 < 2 ∧ List.Perm [2, 0, 3, 1] (List.range X4.cols) ∧
    ((generate_random_mini_batches X4 Y4 2 [2, 0, 3, 1]).length = 1 + X4.cols / 2 ∧
     (batchIndices X4.cols 2 [2, 0, 3, 1]).flatten.Perm (List.range X4.cols) ∧
     (∀ i, i < X4.cols →
        (batchIndices X4.cols 2 [2, 0, 3, 1]).countP (fun c => decide (i ∈ c)) = 1) ∧
     (2 ∣ X4.cols → (batchIndices X4.cols 2 [2, 0, 3, 1]).getLast? = some [])) :=
  ⟨by decide, by decide,
    mini_batches_partition X4 Y4 2 [2, 0, 3, 1] (by decide) (by decide)⟩

/-- Claim C10 (confirmed): `predict` labels an example `1` exactly when its
final activation is strictly greater than `1/2`, and `0` exactly when the
activation is `≤ 1/2` — so an activation of exactly `1/2` is labeled `0`. -/
theorem predict_strict_threshold (parameters : Params) (X : Mat) (i j : ℕ) :
    ((predict parameters X).entry i j = 1 ↔
        (forward_propagation X parameters).2.entry i j > 1 / 2) ∧
    ((predict parameters X).entry i j = 0 ↔
        (forward_propagation X parameters).2.entry i j ≤ 1 / 2) := by
  unfold predict
  by_cases h : (forward_propagation X parameters).2.entry i j > 1 / 2
  · simp [h, le_of_lt, not_le.mpr h]
  · simp [h, not_lt.mp h]

/-- Claim C5 (confirmed): one RMSProp update sets
`s ← β·s + (1-β)·dθ²`, bias-corrects `ŝ = s/(1-β^t)`, and updates
`θ ← θ - α·(1/(ε+√ŝ))` — the gradient `dθ` absent from the final update term
(the step magnitude is `α/(ε+√ŝ)`, not `α·dθ/(ε+√ŝ)`).  Stated for every
layer `l` and entry `(i, j)` of both the weight and the bias stores. -/
theorem rmsprop_update_formula (parameters gradients s : Params) (learning_rate : ℝ)
    (t : ℕ) (beta epsilon : ℝ) (l i j : ℕ)
    (h1 : l < parameters.length) (h2 : l < gradients.length) (h3 : l < s.length) :
    (((update_parameters_rmsprop parameters gradients learning_rate s t beta epsilon).2.getD l dMat2).1.entry i j
        = beta * ((s.getD l dMat2).1.entry i j)
            + (1 - beta) * ((gradients.getD l dMat2).1.entry i j) ^ 2) ∧
    (((update_parameters_rmsprop parameters gradients learning_rate s t beta epsilon).2.getD l dMat2).2.entry i j
        = beta * ((s.getD l dMat2).2.entry i j)
            + (1 - beta) * ((gradients.getD l dMat2).2.entry i j) ^ 2) ∧
    (((update_parameters_rmsprop parameters gradients learning_rate s t beta epsilon).1.getD l dMat2).1.entry i j
        = ((parameters.getD l dMat2).1.entry i j)
            - learning_rate * (1 / (epsilon + Real.sqrt
                ((beta * ((s.getD l dMat2).1.entry i j)
                  + (1 - beta) * ((gradients.getD l dMat2).1.entry i j) ^ 2) / (1 - beta ^ t))))) ∧
    (((update_parameters_rmsprop parameters gradients learning_rate s t beta epsilon).1.getD l dMat2).2.entry i j
        = ((parameters.getD l dMat2).2.entry i j)
            - learning_rate * (1 / (epsilon + Real.sqrt
                ((beta * ((s.getD l dMat2).2.entry i j)
                  + (1 - beta) * ((gradients.getD l dMat2).2.entry i j) ^ 2) / (1 - beta ^ t))))) := by
  have hlen2 : l < (List.zipWith (fun (sp g : Mat × Mat) =>
      (matMap2 (fun sv gv => beta * sv + (1 - beta) * gv ^ 2) sp.1 g.1,
       matMap2 (fun sv gv => beta * sv + (1 - beta) * gv ^ 2) sp.2 g.2)) s gradients).length := by
    rw [List.length_zipWith]; omega
  unfold update_parameters_rmsprop
  rw [getD_zipWith _ dMat2 dMat2 dMat2 h1 hlen2, getD_zipWith _ dMat2 dMat2 dMat2 h3 h2]
  simp [matMap2]

/-- Witness for C5 at a concrete one-layer store
(`θ = 5`, `dθ = 3`, `s = 7`, `α = 1`, `t = 1`, `β = 0`, `ε = 0`). -/
theorem rmsprop_update_formula_witness :
    0 < P5.length ∧ 0 < G5.length ∧ 0 < S5.length ∧
    ((((update_parameters_rmsprop P5 G5 1 S5 1 0 0).2.getD 0 dMat2).1.entry 0 0
        = 0 * ((S5.getD 0 dMat2).1.entry 0 0)
            + (1 - 0) * ((G5.getD 0 dMat2).1.entry 0 0) ^ 2) ∧
     (((update_parameters_rmsprop P5 G5 1 S5 1 0 0).2.getD 0 dMat2).2.entry 0 0
        = 0 * ((S5.getD 0 dMat2).2.entry 0 0)
            + (1 - 0) * ((G5.getD 0 dMat2).2.entry 0 0) ^ 2) ∧
     (((update_parameters_rmsprop P5 G5 1 S5 1 0 0).1.getD 0 dMat2).1.entry 0 0
        = ((P5.getD 0 dMat2).1.entry 0 0)
            - 1 * (1 / (0 + Real.sqrt
                ((0 * ((S5.getD 0 dMat2).1.entry 0 0)
                  + (1 - 0) * ((G5.getD 0 dMat2).1.entry 0 0) ^ 2) / (1 - 0 ^ 1))))) ∧
     (((update_parameters_rmsprop P5 G5 1 S5 1 0 0).1.getD 0 dMat2).2.entry 0 0
        = ((P5.getD 0 dMat2).2.entry 0 0)
            - 1 * (1 / (0 + Real.sqrt
                ((0 * ((S5.getD 0 dMat2).2.entry 0 0)
                  + (1 - 0) * ((G5.getD 0 dMat2).2.entry 0 0) ^ 2) / (1 - 0 ^ 1)))))) :=
  ⟨by simp [P5], by simp [G5], by simp [S5],
    rmsprop_update_formula P5 G5 S5 1 1 0 0 0 0 0
      (by simp [P5]) (by simp [G5]) (by simp [S5])⟩

/-- Claim C4 (confirmed): on the literal `[2,1]` scenario
(`W=[[0.5,-0.5]]`, `b=[[0]]`, `X=[[1],[1]]`, `Y=[[1]]`, `λ=0`) the forward
pass predicts `A = sigmoid(0) = 0.5`; the cost is `-log(0.5) = log 2`
(≈ 0.6931); the backward pass returns `dW = [-0.5, -0.5]`, `db = -0.5`; and
the plain gradient-descent update with `α = 0.1` produces
`W_new = [0.55, -0.45]`, `b_new = 0.05`. -/
theorem literal_scenario_eval :
    ((forward_propagation X41 params41).2).entry 0 0 = 1 / 2 ∧
    compute_cost (forward_propagation X41 params41).2 Y41 params41 0 "l2" = Real.log 2 ∧
    (0.6931 : ℝ) < compute_cost (forward_propagation X41 params41).2 Y41 params41 0 "l2" ∧
    compute_cost (forward_propagation X41 params41).2 Y41 params41 0 "l2" < (0.6932 : ℝ) ∧
    ((backward_propagation Y41 params41 (forward_propagation X41 params41).1 0 "l2").getD 0 dMat2).1.entry 0 0 = -(1 / 2) ∧
    ((backward_propagation Y41 params41 (forward_propagation X41 params41).1 0 "l2").getD 0 dMat2).1.entry 0 1 = -(1 / 2) ∧
    ((backward_propagation Y41 params41 (forward_propagation X41 params41).1 0 "l2").getD 0 dMat2).2.entry 0 0 = -(1 / 2) ∧
    ((update_parameters params41 (backward_propagation Y41 params41 (forward_propagation X41 params41).1 0 "l2") (1 / 10)).getD 0 dMat2).1.entry 0 0 = 0.55 ∧
    ((update_parameters params41 (backward_propagation Y41 params41 (forward_propagation X41 params41).1 0 "l2") (1 / 10)).getD 0 dMat2).1.entry 0 1 = -0.45 ∧
    ((update_parameters params41 (backward_propagation Y41 params41 (forward_propagation X41 params41).1 0 "l2") (1 / 10)).getD 0 dMat2).2.entry 0 0 = 0.05 := by
  have hc : compute_cost (forward_propagation X41 params41).2 Y41 params41 0 "l2"
      = Real.log 2 := by
    simp [compute_cost, forward_propagation, forwardAux, sigmoidMat, matMap, addBias,
      matMul, sumSq, W41, X41, b41, Y41, params41, Finset.sum_range_succ]
    norm_num [sigmoid_zero]
    rw [one_div, Real.log_inv, neg_neg]
  refine ⟨?_, hc, ?_, ?_, ?_, ?_, ?_, ?_, ?_, ?_⟩
  · simp [forward_propagation, forwardAux, sigmoidMat, matMap, addBias, matMul,
      W41, X41, b41, params41, Finset.sum_range_succ]
    norm_num [sigmoid_zero]
  · rw [hc]; linarith [Real.log_two_gt_d9]
  · rw [hc]; linarith [Real.log_two_lt_d9]
  all_goals
    simp [backward_propagation, update_parameters, dzAux, forward_propagation, forwardAux,
      sigmoidMat, matMap, matMap2, matSub, hadamard, rowSums, transpose, addBias, matMul,
      W41, X41, b41, Y41, params41, dMat2, dMat, List.getLastD, Finset.sum_range_succ]
  all_goals norm_num [sigmoid_zero]

/-- Claim C1 (code bug): `backward_propagation` divides by
`m = y.shape[0]` — the number of ROWS of `y`, which is always 1 — instead of
the batch size `y.shape[1]`.  On a batch of two examples (`W=[[0]]`,
`b=[[0]]`, `X=[[1,1]]`, `Y=[[1,1]]`, `λ=0`) the code returns
`dW = [[-1]]`, `db = [[-1]]`, while the spec formula with `m = 2` (columns of
`Y`) — embodied by `backward_propagation_spec` — gives `dW = [[-1/2]]`,
`db = [[-1/2]]`.  The returned gradients are therefore batch-size times the
gradient of the §4.3 cost, and the 1e-5 gradient check of the claim fails for
any batch size above 1. -/
theorem backward_uses_row_count_not_batch :
    ((backward_propagation Yb2 paramsB actsB 0 "l2").getD 0 dMat2).1.entry 0 0 = -1 ∧
    ((backward_propagation Yb2 paramsB actsB 0 "l2").getD 0 dMat2).2.entry 0 0 = -1 ∧
    ((backward_propagation_spec Yb2 paramsB actsB 0 "l2").getD 0 dMat2).1.entry 0 0 = -(1 / 2) ∧
    ((backward_propagation_spec Yb2 paramsB actsB 0 "l2").getD 0 dMat2).2.entry 0 0 = -(1 / 2) := by
  refine ⟨?_, ?_, ?_, ?_⟩ <;>
  · simp [backward_propagation, backward_propagation_spec, actsB, dzAux,
      forward_propagation, forwardAux, sigmoidMat, matMap, matMap2, matSub, hadamard,
      rowSums, transpose, addBias, matMul, Wb1, bb1, Xb2, Yb2, paramsB, dMat2, dMat,
      List.getLastD, Finset.sum_range_succ]
    norm_num [sigmoid_zero]

/-- Claim C2 (code bug): `train_nn_model` never increments the step counter —
it passes its argument `t` (source default `t=2`) unchanged to the update
call of every mini-batch.  A two-epoch Adam run over one mini-batch per epoch
executes its updates with `t = 2, 2`, not with `t = 1, 2` as the claim
requires. -/
theorem train_step_counter_constant :
    (train_nn_model nz0 permsId X1 Y1 [] 2 (1 / 10) 0 "l2" "adam"
        (9 / 10) (999 / 1000) 0 2).map (fun r => r.2.updates)
      = .ok [(URule.adam, 2), (URule.adam, 2)] ∧
    [(URule.adam, 2), (URule.adam, 2)] ≠ [(URule.adam, 1), (URule.adam, 2)] :=
  ⟨rfl, by decide⟩

/-- The epoch loop hands the sampler the same width on every epoch. -/
lemma runEpochs_widths (perms : ℕ → List ℕ) (X y : Mat) (rule : URule)
    (lr lambd : ℝ) (reg : String) (b1 b2 eps : ℝ) (t B : ℕ) :
    ∀ (k e : ℕ) (st : Params × OptState),
      (runEpochs perms X y rule lr lambd reg b1 b2 eps t B e k st).2.1
        = List.replicate k B := by
  intro k
  induction k with
  | zero => intro e st; rfl
  | succ k ih =>
      intro e st
      simp only [runEpochs, List.replicate_succ]
      rw [ih]

/-- Claim C6, amended (the training entry point accepts no `mini_batch_size`
option): whatever the caller passes, `train_nn_model` invokes the mini-batch
sampler with the hard-coded chunk width 64 on every epoch of every run that
gets past initialization. -/
theorem train_batch_width_always_64 (nz : ℕ → ℕ → ℕ → ℝ) (perms : ℕ → List ℕ)
    (X y : Mat) (hidden_layers : List ℤ) (epochs : ℕ) (learning_rate lambd : ℝ)
    (regularization optimization : String) (beta1 beta2 epsilon : ℝ) (t : ℕ) :
    (train_nn_model nz perms X y hidden_layers epochs learning_rate lambd
        regularization optimization beta1 beta2 epsilon t).map
      (fun r => r.2.samplerWidths)
      = (train_nn_model nz perms X y hidden_layers epochs learning_rate lambd
        regularization optimization beta1 beta2 epsilon t).map
      (fun _ => List.replicate epochs 64) := by
  unfold train_nn_model
  cases hcl : create_layers nz ((X.rows : ℤ) :: hidden_layers ++ [1]) with
  | error e => rfl
  | ok ps => simp [Except.map, runEpochs_widths]

/-- Counterexample for C6 as stated: with every numeric configuration value
set to 2 (and no way to supply a `mini_batch_size` at all — the signature has
no such option), the sampler is still invoked with width 64, not 2. -/
theorem train_batch_width_hardcoded_cex :
    (train_nn_model nz0 permsId X1 Y1 [] 1 2 2 "l2" "adam" 2 2 2 2).map
        (fun r => r.2.samplerWidths) = .ok [64] ∧ (64 : ℕ) ≠ 2 :=
  ⟨rfl, by decide⟩

/-- Claim C8, amended: an optimizer name outside
`{"rmsprop", "adam", "momentum"}` is not rejected — no error of any kind is
raised.  The run proceeds exactly as with `optimization = "none"`, silently
falling back to the plain gradient-descent update for every mini-batch. -/
theorem unknown_optimizer_plain_fallback (nz : ℕ → ℕ → ℕ → ℝ) (perms : ℕ → List ℕ)
    (X y : Mat) (hidden_layers : List ℤ) (epochs : ℕ) (learning_rate lambd : ℝ)
    (regularization optimization : String) (beta1 beta2 epsilon : ℝ) (t : ℕ)
    (h1 : optimization ≠ "rmsprop") (h2 : optimization ≠ "adam")
    (h3 : optimization ≠ "momentum") :
    train_nn_model nz perms X y hidden_layers epochs learning_rate lambd
        regularization optimization beta1 beta2 epsilon t
      = train_nn_model nz perms X y hidden_layers epochs learning_rate lambd
        regularization "none" beta1 beta2 epsilon t := by
  have h4 : ruleOf optimization = URule.plain := by
    unfold ruleOf
    rw [if_neg h1, if_neg h2, if_neg h3]
  have h5 : ruleOf "none" = URule.plain := rfl
  simp only [train_nn_model, h4, h5]

/-- Witness for C8 at the unrecognized name `"sgd"`. -/
theorem unknown_optimizer_plain_fallback_witness :
    (("sgd" : String) ≠ "rmsprop" ∧ ("sgd" : String) ≠ "adam" ∧
      ("sgd" : String) ≠ "momentum") ∧
    train_nn_model nz0 permsId X1 Y1 [] 1 (1 / 10) 0 "l2" "sgd"
        (9 / 10) (999 / 1000) 0 2
      = train_nn_model nz0 permsId X1 Y1 [] 1 (1 / 10) 0 "l2" "none"
        (9 / 10) (999 / 1000) 0 2 :=
  ⟨⟨by decide, by decide, by decide⟩,
    unknown_optimizer_plain_fallback nz0 permsId X1 Y1 [] 1 (1 / 10) 0 "l2" "sgd"
      (9 / 10) (999 / 1000) 0 2 (by decide) (by decide) (by decide)⟩

/-- Counterexample for C8 as stated: a run with `optimization = "sgd"` does
not fail with any error before parameter mutation — it completes, executing
the plain gradient-descent update on its mini-batch. -/
theorem unknown_optimizer_fallback_cex :
    (train_nn_model nz0 permsId X1 Y1 [] 1 (1 / 10) 0 "l2" "sgd"
        (9 / 10) (999 / 1000) 0 2).map (fun r => r.2.updates)
      = .ok [(URule.plain, 2)] := rfl

/-- The loop body of `create_layers` succeeds on any run of positive
adjacent widths, producing one layer per pair. -/
lemma clAux_ok_of_pos (nz : ℕ → ℕ → ℕ → ℝ) :
    ∀ (pairs : List (ℤ × ℤ)) (idx : ℕ), (∀ p ∈ pairs, 0 < p.1 ∧ 0 < p.2) →
      ∃ ps, clAux nz idx pairs = .ok ps ∧ ps.length = pairs.length := by
  intro pairs
  induction pairs with
  | nil => intro idx _; exact ⟨[], rfl, rfl⟩
  | cons q rest ih =>
      intro idx h
      obtain ⟨a, b⟩ := q
      obtain ⟨ha, hb⟩ := h (a, b) (List.mem_cons_self _ _)
      have hinit : ∃ pv, initialize_parameters (nz idx) a b = .ok pv := by
        unfold initialize_parameters
        rw [if_neg (by push_neg; exact ⟨hb.le, ha.le⟩), if_neg (by exact ne_of_gt ha)]
        exact ⟨_, rfl⟩
      obtain ⟨pv, hpv⟩ := hinit
      obtain ⟨ps, hps, hlen⟩ := ih (idx + 1) (fun p hp => h p (List.mem_cons_of_mem _ hp))
      refine ⟨pv :: ps, ?_, by simp [hlen]⟩
      simp only [clAux, hpv, hps]
      rfl

/-- Claim C7, amended: the Initializer performs no validation at all.
A topology with fewer than two entries silently succeeds with an empty
parameter store; the topology `[3, 0]` (a non-positive width) also succeeds;
errors arise only from the numeric primitives — `ZeroDivisionError` when a
zero width is used as an input dimension, `ValueError` from `randn` for a
negative width — never a `ConfigError`; and every topology of positive
widths succeeds with one layer per adjacent pair. -/
theorem create_layers_no_validation :
    (∀ (nz : ℕ → ℕ → ℕ → ℝ) (L : List ℤ), L.length < 2 →
        create_layers nz L = .ok []) ∧
    (∀ (nz : ℕ → ℕ → ℕ → ℝ) (L : List ℤ), (∀ w ∈ L, 0 < w) →
        ∃ ps, create_layers nz L = .ok ps ∧ ps.length = L.length - 1) ∧
    (∀ nz : ℕ → ℕ → ℕ → ℝ, ∃ ps, create_layers nz [3, 0] = .ok ps) ∧
    (∀ (nz : ℕ → ℕ → ℕ → ℝ) (n : ℤ) (L : List ℤ), 0 ≤ n →
        create_layers nz ((0 : ℤ) :: n :: L) = .error .zeroDivisionError) ∧
    (∀ (nz : ℕ → ℕ → ℕ → ℝ) (n w : ℤ) (L : List ℤ), n < 0 →
        create_layers nz (n :: w :: L) = .error .valueError) := by
  refine ⟨?_, ?_, ?_, ?_, ?_⟩
  · intro nz L h
    match L, h with
    | [], _ => rfl
    | [a], _ => rfl
  · intro nz L h
    have hmem : ∀ p ∈ L.zip L.tail, 0 < p.1 ∧ 0 < p.2 := by
      intro p hp
      obtain ⟨hp1, hp2⟩ := List.of_mem_zip hp
      exact ⟨h _ hp1, h _ (List.mem_of_mem_tail hp2)⟩
    obtain ⟨ps, hps, hlen⟩ := clAux_ok_of_pos nz (L.zip L.tail) 1 hmem
    refine ⟨ps, hps, ?_⟩
    rw [hlen, List.length_zip, List.length_tail]
    omega
  · intro nz
    exact ⟨_, rfl⟩
  · intro nz n L h
    have hinit : initialize_parameters (nz 1) 0 n = .error .zeroDivisionError := by
      unfold initialize_parameters
      rw [if_neg (by push_neg; exact ⟨h, le_refl 0⟩), if_pos rfl]
    show clAux nz 1 ((0, n) :: (n :: L).zip L) = .error .zeroDivisionError
    simp only [clAux, hinit]
    rfl
  · intro nz n w L h
    have hinit : initialize_parameters (nz 1) n w = .error .valueError := by
      unfold initialize_parameters
      rw [if_pos (Or.inr h)]
    show clAux nz 1 ((n, w) :: (w :: L).zip L) = .error .valueError
    simp only [clAux, hinit]
    rfl

/-- Witness for C7: the one-entry topology `[7]` succeeds with an empty
store, and `[0, 3]` fails with `ZeroDivisionError`, not a `ConfigError`. -/
theorem create_layers_no_validation_witness :
    ([7] : List ℤ).length < 2 ∧ (0 : ℤ) ≤ 3 ∧
    create_layers nz0 [7] = .ok [] ∧
    create_layers nz0 [0, 3] = .error .zeroDivisionError :=
  ⟨by decide, by decide, create_layers_no_validation.1 nz0 [7] (by decide),
    create_layers_no_validation.2.2.2.1 nz0 3 [] (by decide)⟩

/-- Counterexample for C7 as stated: the single-entry topology `[5]` (fewer
than two entries) does not fail — `create_layers` returns an empty parameter
store. -/
theorem create_layers_short_topology_cex :
    create_layers nz0 [5] = Except.ok [] := rfl

end NN
